import Mathlib

/-!
Verification of the sirun benchmark harness (src/main.rs) against its
specification.  The Rust program is shallowly embedded: string processing
is modelled on `List Char`, the statsd/metrics maps as association lists
with overwrite-on-insert semantics, ratios and 64-bit floats as `ℚ`
(the claims only involve finite decimal values), and process control flow
(normal return, `process::exit`, error propagation via `?`, panics) as an
explicit `Outcome` type.
-/

namespace Sirun

/-- Whitespace predicate used by `str::trim` / `split_whitespace`.
Lean's `Char.isWhitespace` covers space, tab, CR and LF, which matches the
characters occurring in this program's data. -/
def isWS (c : Char) : Bool := c.isWhitespace

/-- Splits a character list at every occurrence of `sep`, keeping empty
components, like Rust `str::split(sep)`.  Always returns a non-empty list. -/
def splitOnChar (sep : Char) : List Char → List (List Char)
  | [] => [[]]
  | c :: cs =>
    match splitOnChar sep cs with
    | [] => [[c]]
    | r :: rs => if c = sep then [] :: r :: rs else (c :: r) :: rs

/-- Removes one trailing carriage return, as Rust `str::lines` does per line. -/
def stripCR (l : List Char) : List Char :=
  if l.getLast? = some '\r' then l.dropLast else l

/-- Rust `str::lines`: split on `'\n'`, drop a final empty piece produced by a
trailing newline, strip one `'\r'` from the end of each line. -/
def rustLines (s : List Char) : List (List Char) :=
  if s = [] then []
  else
    let parts := splitOnChar '\n' s
    let parts := if parts.getLast? = some [] then parts.dropLast else parts
    parts.map stripCR

/-- Rust `str::trim`: drop whitespace from both ends. -/
def trimChars (s : List Char) : List Char :=
  ((s.dropWhile isWS).reverse.dropWhile isWS).reverse

/-- Accumulator-based worker for `splitWS`. -/
def splitWSAux : List Char → List Char → List (List Char)
  | acc, [] => if acc = [] then [] else [acc.reverse]
  | acc, c :: cs =>
    if isWS c then
      if acc = [] then splitWSAux [] cs else acc.reverse :: splitWSAux [] cs
    else splitWSAux (c :: acc) cs

/-- Rust `str::split_whitespace`: maximal runs of non-whitespace characters. -/
def splitWS (s : List Char) : List (List Char) := splitWSAux [] s

/-- Boolean prefix test on character lists. -/
def hasPrefixC : List Char → List Char → Bool
  | [], _ => true
  | _ :: _, [] => false
  | p :: ps, c :: cs => p = c && hasPrefixC ps cs

/-- Rust `str::contains(pat)` for a string pattern: substring test. -/
def containsSub : List Char → List Char → Bool
  | [], pat => pat.isEmpty
  | l@(_ :: cs), pat => hasPrefixC pat l || containsSub cs pat

/-- Numeric value of a digit string, most significant digit first. -/
def digitsToNat (l : List Char) : Nat :=
  l.foldl (fun n c => 10 * n + (c.toNat - '0'.toNat)) 0

/-- True when the list is made of ASCII digits only (may be empty). -/
def allDigits (l : List Char) : Bool := l.all Char.isDigit

/-- Splits a mantissa from an optional exponent part at the first `e`/`E`. -/
def splitExp : List Char → List Char × Option (List Char)
  | [] => ([], none)
  | c :: cs =>
    if c = 'e' ∨ c = 'E' then ([], some cs)
    else
      match splitExp cs with
      | (m, e) => (c :: m, e)

/-- Strips one leading sign, returning the sign as `+1`/`-1`. -/
def stripSign : List Char → ℤ × List Char
  | '+' :: t => (1, t)
  | '-' :: t => (-1, t)
  | t => (1, t)

/-- Parses an unsigned decimal mantissa `digits [. digits]` (at least one digit
overall, at most one dot) into a scaled numerator and the length of the
fractional part, so that the value is `numerator / 10 ^ fracLen`. -/
def parseMantissa (m : List Char) : Option (ℕ × ℕ) :=
  match splitOnChar '.' m with
  | [intPart] =>
    if allDigits intPart ∧ intPart ≠ [] then some (digitsToNat intPart, 0) else none
  | [intPart, fracPart] =>
    if allDigits intPart ∧ allDigits fracPart ∧ (intPart ≠ [] ∨ fracPart ≠ []) then
      some (digitsToNat intPart * 10 ^ fracPart.length + digitsToNat fracPart,
            fracPart.length)
    else none
  | _ => none

/-- Parses a signed exponent `[+-]digits` into an integer. -/
def parseExpPart (e : List Char) : Option ℤ :=
  match stripSign e with
  | (sgn, digits) =>
    if allDigits digits ∧ digits ≠ [] then some (sgn * (digitsToNat digits : ℤ))
    else none

/-- Assembles sign, scaled mantissa numerator, fractional length and exponent
into an exact rational `sgn * num * 10 ^ e / 10 ^ fracLen`.  Built from integer
arithmetic and a single `mkRat` so that concrete values reduce by `decide`. -/
def decToRat (sgn : ℤ) (num : ℕ) (fracLen : ℕ) (e : ℤ) : ℚ :=
  if 0 ≤ e then mkRat (sgn * num * 10 ^ e.toNat) (10 ^ fracLen)
  else mkRat (sgn * num) (10 ^ fracLen * 10 ^ (-e).toNat)

/-- Models Rust `str::parse::<f64>` on the finite-decimal fragment of its
grammar, `[+-]? digits [. digits]? [(e|E) [+-]? digits]?`, as an exact
rational.  The special values `inf`/`NaN` are outside every value this
program's claims exercise and are rejected here. -/
def parse_f64 (s : List Char) : Option ℚ :=
  match stripSign s with
  | (sgn, rest) =>
    match splitExp rest with
    | (m, none) =>
      match parseMantissa m with
      | some (num, fracLen) => some (decToRat sgn num fracLen 0)
      | none => none
    | (m, some e) =>
      match parseMantissa m, parseExpPart e with
      | some (num, fracLen), some k => some (decToRat sgn num fracLen k)
      | _, _ => none

/-- The metric value union from src/main.rs lines 23-29: a string, a 64-bit
float (modelled as `ℚ`), or an array of metric maps. -/
inductive MetricValue where
  | str : String → MetricValue
  | num : ℚ → MetricValue
  | arr : List (List (String × MetricValue)) → MetricValue

/-- The `HashMap<String, MetricValue>` of the program, modelled as an
association list whose insert overwrites an existing binding in place. -/
abbrev Metrics := List (String × MetricValue)

/-- `HashMap::insert`: overwrite the binding of `k` if present, else append. -/
def aInsert {α : Type} : List (String × α) → String → α → List (String × α)
  | [], k, v => [(k, v)]
  | (k', v') :: t, k, v =>
    if k' = k then (k, v) :: t else (k', v') :: aInsert t k v

/-- `HashMap::get`: the value bound to `k`, if any. -/
def aLookup {α : Type} : List (String × α) → String → Option α
  | [], _ => none
  | (k', v') :: t, k => if k' = k then some v' else aLookup t k

/-- The keys of a map, in insertion order. -/
def aKeys {α : Type} (m : List (String × α)) : List String := m.map Prod.fst

/-- The colon-separated fields the program extracts from one statsd line:
`line.split('|').next()` (the part before the first `'|'`), then split at
every `':'` (src/main.rs lines 79-82). -/
def statsd_line_fields (line : List Char) : List (List Char) :=
  splitOnChar ':' ((splitOnChar '|' line).headD [])

/-- Worker for `get_statsd_metrics`: processes each line in order.  A line
with fewer than two colon fields is skipped; otherwise the second field is
parsed as an `f64`, a parse failure aborting the whole call (the `?` on
line 86 of src/main.rs), and the value is inserted under the first field. -/
def statsdGo : Metrics → List (List Char) → Except String Metrics
  | m, [] => .ok m
  | m, line :: rest =>
    match statsd_line_fields line with
    | name :: value :: _ =>
      match parse_f64 value with
      | none => .error "invalid float literal"
      | some q => statsdGo (aInsert m (String.mk name) (.num q)) rest
    | _ => statsdGo m rest

/-- `get_statsd_metrics` from src/main.rs lines 76-89: trim the drained UDP
text, split it into lines, and fold each telemetry line into the map. -/
def get_statsd_metrics (metrics : Metrics) (udp_data : String) :
    Except String Metrics :=
  statsdGo metrics (rustLines (trimChars udp_data.data))

/-- The names that `get_statsd_metrics` would bind from the drained text:
first fields of the lines having at least two colon fields. -/
def statsdNames (udp_data : String) : List String :=
  (rustLines (trimChars udp_data.data)).filterMap fun line =>
    match statsd_line_fields line with
    | name :: _ :: _ => some (String.mk name)
    | _ => none

/-- How a piece of the harness's control flow ends: a normal value, a
`process::exit(code)`, an `Err` propagated by `?`/`bail!`, or a panic
(`expect`/`panic!` in the source). -/
inductive Outcome (α : Type) where
  | ok : α → Outcome α
  | exited : ℤ → Outcome α
  | err : String → Outcome α
  | panicked : String → Outcome α
deriving DecidableEq

/-- Propagation of non-`ok` outcomes, as performed by `?` and by control flow
around `process::exit` and panics. -/
def Outcome.bind {α β : Type} : Outcome α → (α → Outcome β) → Outcome β
  | .ok a, f => f a
  | .exited c, _ => .exited c
  | .err e, _ => .err e
  | .panicked p, _ => .panicked p

/-- Modelled from the spec: the resource usage snapshot of rusage.rs, which is
not under src/.  §3: "{user CPU time, system CPU time, max resident size} at a
point in time". -/
structure Rusage where
  user_time : ℚ
  system_time : ℚ
  max_res_size : ℚ
deriving DecidableEq

/-- Modelled from the spec: §3 "Delta = after − before, field-wise", the
`Rusage::new() - rusage_start` of src/main.rs line 161. -/
def rusageSub (a b : Rusage) : Rusage :=
  ⟨a.user_time - b.user_time, a.system_time - b.system_time,
   a.max_res_size - b.max_res_size⟩

/-- `get_kernel_metrics` from src/main.rs lines 91-98: inserts the resource
usage fields and the derived CPU percentage
`(user_time + system_time) * 100 / wall_time`. -/
def get_kernel_metrics (wall_time : ℚ) (data : Rusage) (metrics : Metrics) :
    Metrics :=
  let metrics := aInsert metrics "max.res.size" (.num data.max_res_size)
  let metrics := aInsert metrics "user.time" (.num data.user_time)
  let metrics := aInsert metrics "system.time" (.num data.system_time)
  aInsert metrics "cpu.pct.wall.time"
    (.num ((data.user_time + data.system_time) * 100 / wall_time))

/-- Modelled from the spec: the config record of config.rs, which is not under
src/.  §6 gives the schema: `run`, optional `setup`, `env`, `iterations`,
optional `timeout`, the `cachegrind` profiler flag, optional `name` and
`variant`. -/
structure Config where
  run : List String
  setup : Option (List String)
  env : List (String × String)
  iterations : Nat
  timeout : Option Nat
  cachegrind : Bool
  name : Option String
  variant : Option String
deriving DecidableEq

/-- `run_test` from src/main.rs lines 140-172, as a function of the measured
command's termination status (`none` models a child with no exit code), the
elapsed wall time in microseconds, the rusage delta, the drained telemetry
buffer and the metrics map being filled.  Wall time is inserted first
(line 162); a missing exit code panics (line 163); a non-zero code at most 128
exits the process with that code (lines 164-167); otherwise kernel metrics and
parsed telemetry are merged (lines 168-170). -/
def run_test (status : Option ℤ) (durationMicros : ℚ) (rusageDelta : Rusage)
    (statsdBuf : String) (metrics : Metrics) : Outcome Metrics :=
  let metrics := aInsert metrics "wall.time" (.num durationMicros)
  match status with
  | none => .panicked "no exit code"
  | some c =>
    if c ≠ 0 ∧ c ≤ 128 then .exited c
    else
      let metrics := get_kernel_metrics durationMicros rusageDelta metrics
      match get_statsd_metrics metrics statsdBuf with
      | .error e => .err e
      | .ok m => .ok m

/-- A value of the environment passed to a spawned iteration child: either a
plain string or the `serde_yaml` serialization of a `Config`, kept symbolic. -/
inductive EnvValue where
  | plain : String → EnvValue
  | yamlConfig : Config → EnvValue
deriving DecidableEq

/-- The environment `run_iteration` spawns its child with, from src/main.rs
lines 179-185: the parent's `env` plus `SIRUN_ITERATION` bound to
`serde_yaml::to_string(&config)`.  The serialization on line 180 is taken
before line 182 sets `config.cachegrind = false`, so the serialized value is
the unmodified clone `c0`; the cleared flag is never read afterwards. -/
def run_iteration_childEnv (c0 : Config) : List (String × EnvValue) :=
  aInsert (c0.env.map fun p => (p.1, EnvValue.plain p.2)) "SIRUN_ITERATION"
    (EnvValue.yamlConfig c0)

/-- Modelled from the spec: the per-iteration child config the spec prescribes,
§3 "Cloned per iteration with profiler flag forced off" and §4.5 "clone
config, force profiler flag off, serialize, inject". -/
def spec_childConfig (c0 : Config) : Config := { c0 with cachegrind := false }

/-- `run_iteration` from src/main.rs lines 174-197 as a function of the child
harness's termination status and the telemetry buffer drained after it exits:
panics without an exit code (line 190), exits on a non-zero code at most 128
(lines 191-193), and otherwise merges the drained buffer into the metrics map
(lines 194-195). -/
def run_iteration (status : Option ℤ) (statsdBuf : String) (metrics : Metrics) :
    Outcome Metrics :=
  match status with
  | none => .panicked "no exit code"
  | some c =>
    if c ≠ 0 ∧ c ≤ 128 then .exited c
    else
      match get_statsd_metrics metrics statsdBuf with
      | .error e => .err e
      | .ok m => .ok m

/-- One observable event of the setup loop: a run of the setup command that
returned the given status, or the one-second sleep after a failure. -/
inductive SetupEv where
  | run : Option ℤ → SetupEv
  | sleepSec : SetupEv
deriving DecidableEq

/-- The loop of `run_setup` (src/main.rs lines 107-132), recursing on the
number of attempts still allowed before the cap; `run_setup` enters it with
`attempts = 0`, `remaining = 100`, so `remaining = 0` here is exactly the
`attempts == 100` bailout of line 111.  `status k` is the termination status
of the `k`-th run of the setup command; a missing exit code panics
(line 124), a non-zero code sleeps one second and retries (lines 125-128). -/
def run_setup_go (status : ℕ → Option ℤ) :
    ℕ → ℕ → List SetupEv × Outcome Unit
  | _, 0 =>
    ([], .err "setup script did not complete successfully. aborting.")
  | attempts, remaining + 1 =>
    match status attempts with
    | none => ([.run none], .panicked "no exit code")
    | some c =>
      if c = 0 then ([.run (some 0)], .ok ())
      else
        match run_setup_go status (attempts + 1) remaining with
        | (tr, r) => (.run (some c) :: .sleepSec :: tr, r)

/-- `run_setup`: the retry loop started with zero prior attempts; returns the
trace of runs and sleeps together with the final outcome. -/
def run_setup (status : ℕ → Option ℤ) : List SetupEv × Outcome Unit :=
  run_setup_go status 0 100

/-- The sequence of src/main.rs lines 208-212 and 222-223: the setup loop
followed, only on its success, by the measured run. -/
def setup_then_test (setupStatus : ℕ → Option ℤ) (testStatus : Option ℤ)
    (d : ℚ) (ru : Rusage) (buf : String) : Outcome Metrics :=
  ((run_setup setupStatus).2).bind fun _ => run_test testStatus d ru buf []

/-- The five-line wire report an iteration child sends to the parent,
src/main.rs lines 235-242, with the `Display`-rendered metric values given as
strings. -/
def iteration_report (s1 s2 s3 s4 s5 : String) : String :=
  "max.res.size:" ++ s1 ++ "|g\n" ++
  "user.time:" ++ s2 ++ "|g\n" ++
  "system.time:" ++ s3 ++ "|g\n" ++
  "wall.time:" ++ s4 ++ "|g\n" ++
  "cpu.pct.wall.time:" ++ s5 ++ "|g\n"

/-- The `for _ in 0..config.iterations` loop of src/main.rs lines 225-230: the
`i`-th iteration child terminates with `statuses i` and leaves `bufs i` in the
telemetry buffer; each iteration starts from a fresh empty map. -/
def iterations_loop (statuses : ℕ → Option ℤ) (bufs : ℕ → String) :
    ℕ → ℕ → Outcome (List Metrics)
  | _, 0 => .ok []
  | i, n + 1 =>
    (run_iteration (statuses i) (bufs i) []).bind fun entry =>
      (iterations_loop statuses bufs (i + 1) n).bind fun rest =>
        .ok (entry :: rest)

/-- The multi-iteration branch of `main`, src/main.rs lines 224-232: run the
loop for `cfg.iterations` children and store the collected records under the
key `"iterations"` of a fresh top-level map. -/
def main_multi (cfg : Config) (statuses : ℕ → Option ℤ) (bufs : ℕ → String) :
    Outcome Metrics :=
  (iterations_loop statuses bufs 0 cfg.iterations).bind fun its =>
    .ok (aInsert [] "iterations" (.arr its))

/-- The line filter pattern of src/main.rs line 265. -/
def cachegrind_pat : List Char := "I   refs:".data

/-- The summation loop of src/main.rs lines 266-276 over the filtered
cachegrind lines: take the last whitespace-separated token of the trimmed
line (a missing token panics), strip `','` thousands separators, parse as
`f64` (a failure panics), and add to the accumulator. -/
def cachegrind_sum : ℚ → List (List Char) → Outcome ℚ
  | acc, [] => .ok acc
  | acc, line :: rest =>
    match (splitWS (trimChars line)).getLast? with
    | none => .panicked "Bad cachegrind output: invalid instruction ref line"
    | some tok =>
      match parse_f64 (tok.filter fun c => c ≠ ',') with
      | none => .panicked "Bad cachegrind output: invalid number"
      | some v => cachegrind_sum (acc + v) rest

/-- The cachegrind extraction of src/main.rs lines 263-281 as a function of
the profiler's standard-error text: keep the lines containing `"I   refs:"`,
sum their trailing instruction counts, and exit with code 1 when the sum is
not positive (lines 277-280). -/
def cachegrind_instructions (stderr : String) : Outcome ℚ :=
  let lines := (rustLines (trimChars stderr.data)).filter
    fun l => containsSub l cachegrind_pat
  (cachegrind_sum 0 lines).bind fun instructions =>
    if instructions ≤ 0 then .exited 1 else .ok instructions

/-- The text a received datagram decodes to, src/main.rs line 71:
`String::from_utf8(..)` is modelled by its result (`some` a string for valid
UTF-8, `none` for invalid bytes), and `unwrap_or_else` degrades the invalid
case to the empty string. -/
def decode_datagram (r : Option String) : String := r.getD ""

/-- One turn of the listener loop, src/main.rs lines 67-73: the received
bytes' decoded text is appended in full to the shared buffer. -/
def listener_append (buf : String) (r : Option String) : String :=
  buf ++ decode_datagram r

/-- The listener loop over a sequence of received datagrams. -/
def listener_run (buf : String) (ds : List (Option String)) : String :=
  ds.foldl listener_append buf

/-- The concatenation of the decoded texts of a sequence of datagrams. -/
def decodeAll : List (Option String) → String
  | [] => ""
  | d :: t => decode_datagram d ++ decodeAll t

/-- Joins components with `'|'`, the inverse of `splitOnChar '|'`. -/
def joinBar : List (List Char) → List Char
  | [] => []
  | [x] => x
  | x :: xs => x ++ '|' :: joinBar xs

/-- The part of a line before its final `'|'` (the whole line when it has
none). -/
def beforeFinalBar (line : List Char) : List Char :=
  let parts := splitOnChar '|' line
  if parts.length ≤ 1 then line else joinBar parts.dropLast

/-- Follows the spec's words (§6): "suffix after final `|` ignored", so the
name and value fields come from everything before the final `'|'`. -/
def statsd_line_fields_spec (line : List Char) : List (List Char) :=
  splitOnChar ':' (beforeFinalBar line)

/-- The statsd loop as the spec's words describe it, differing from
`statsdGo` only in taking the fields from before the final `'|'`. -/
def statsdGoSpec : Metrics → List (List Char) → Except String Metrics
  | m, [] => .ok m
  | m, line :: rest =>
    match statsd_line_fields_spec line with
    | name :: value :: _ =>
      match parse_f64 value with
      | none => .error "invalid float literal"
      | some q => statsdGoSpec (aInsert m (String.mk name) (.num q)) rest
    | _ => statsdGoSpec m rest

/-- `get_statsd_metrics` as the spec's words describe it. -/
def get_statsd_metrics_spec (metrics : Metrics) (udp_data : String) :
    Except String Metrics :=
  statsdGoSpec metrics (rustLines (trimChars udp_data.data))

/-- The five fixed kernel metric names, in the order the program emits them
on the wire (src/main.rs lines 235-242). -/
def fiveKeys : List String :=
  ["max.res.size", "user.time", "system.time", "wall.time", "cpu.pct.wall.time"]

/-- A well-formed `Display`-rendered metric value: it parses back as an `f64`
and contains none of the wire protocol's structural characters, which holds
of every string Rust's `Display` produces for a finite `f64`. -/
def goodVal (s : String) : Prop :=
  (parse_f64 s.data).isSome = true ∧
  ∀ c ∈ s.data, c ≠ '\n' ∧ c ≠ '|' ∧ c ≠ ':'

/-- A telemetry buffer holding exactly one iteration child's five-metric
report with well-formed rendered values. -/
def goodReport (b : String) : Prop :=
  ∃ s1 s2 s3 s4 s5, goodVal s1 ∧ goodVal s2 ∧ goodVal s3 ∧ goodVal s4 ∧
    goodVal s5 ∧ b = iteration_report s1 s2 s3 s4 s5

/-- A setup command that fails three times and then succeeds. -/
def st_fail3 (i : ℕ) : Option ℤ := if i < 3 then some 1 else some 0

/-- A setup command that fails on each of its first hundred runs. -/
def st_fail100 (i : ℕ) : Option ℤ := if i < 100 then some 1 else some 0

/-- Profiler diagnostic output with two instruction-reference lines, valued
`1,000` and `500`. -/
def cachegrind_example : String :=
  "==123== I   refs:      1,000\n==456== I   refs:        500"

/-- A concrete config with two iterations, exercising the multi-iteration
branch of `main`. -/
def c3_config : Config :=
  { run := ["true"], setup := none, env := [], iterations := 2,
    timeout := none, cachegrind := false, name := none, variant := none }

/-- A concrete config with the profiler flag on, exercising the iteration
spawn path. -/
def c7_config : Config :=
  { run := ["true"], setup := none, env := [("A", "b")], iterations := 2,
    timeout := none, cachegrind := true, name := none, variant := none }

example : parse_f64 "1".data = some 1 := by decide
example : parse_f64 "42.5".data = some (mkRat 85 2) := by decide
example : parse_f64 "notanumber".data = none := by decide
example : parse_f64 "1000".data = some 1000 := by decide
example : parse_f64 "".data = none := by decide
example : parse_f64 "-2.5e2".data = some (-250) := by decide
example : parse_f64 "1.".data = some 1 := by decide
example : parse_f64 ".5".data = some (mkRat 1 2) := by decide
example : parse_f64 " 1".data = none := by decide
example : splitWS "  a  bc ".data = ["a".data, "bc".data] := by decide
example : rustLines "a\nb\n".data = ["a".data, "b".data] := by decide
example : trimChars "  ab\n".data = "ab".data := by decide
example : containsSub "xxI   refs:yy".data "I   refs:".data = true := by decide
example : containsSub "nope".data "I   refs:".data = false := by decide
example : get_statsd_metrics [] "foo:42.5|g\n" =
    .ok [("foo", .num (mkRat 85 2))] := by rfl
example : get_statsd_metrics [] "bad:notanumber|g" =
    .error "invalid float literal" := by rfl
example : get_statsd_metrics [] "" = .ok [] := by rfl

theorem aLookup_aInsert {α : Type} (m : List (String × α)) (k : String) (v : α) :
    aLookup (aInsert m k v) k = some v := by
  induction m with
  | nil => simp [aInsert, aLookup]
  | cons p t ih =>
    obtain ⟨k', v'⟩ := p
    by_cases h : k' = k
    · simp [aInsert, aLookup, h]
    · simp [aInsert, aLookup, h, ih]

theorem aLookup_aInsert_ne {α : Type} (m : List (String × α)) {k k' : String}
    (v : α) (h : k ≠ k') : aLookup (aInsert m k v) k' = aLookup m k' := by
  induction m with
  | nil => simp [aInsert, aLookup, h]
  | cons p t ih =>
    obtain ⟨k'', v''⟩ := p
    by_cases h2 : k'' = k
    · subst h2
      simp [aInsert, aLookup, h]
    · simp only [aInsert, if_neg h2]
      by_cases h3 : k'' = k'
      · simp [aLookup, h3]
      · simp [aLookup, h3, ih]

theorem statsdGo_lookup_not_mem (lines : List (List Char)) :
    ∀ (m final : Metrics) (k : String),
      statsdGo m lines = .ok final →
      (∀ line ∈ lines, ∀ name value t, statsd_line_fields line = name :: value :: t →
        String.mk name ≠ k) →
      aLookup final k = aLookup m k := by
  induction lines with
  | nil =>
    intro m final k h _
    simp only [statsdGo] at h
    cases h
    rfl
  | cons line rest ih =>
    intro m final k h hnames
    simp only [statsdGo] at h
    cases hf : statsd_line_fields line with
    | nil =>
      rw [hf] at h
      have := ih m final k h (fun l hl => hnames l (List.mem_cons_of_mem _ hl))
      exact this
    | cons name t =>
      cases t with
      | nil =>
        rw [hf] at h
        exact ih m final k h (fun l hl => hnames l (List.mem_cons_of_mem _ hl))
      | cons value t2 =>
        rw [hf] at h
        dsimp only at h
        cases hp : parse_f64 value with
        | none => rw [hp] at h; cases h
        | some q =>
          rw [hp] at h
          dsimp only at h
          have hne : String.mk name ≠ k :=
            hnames line (List.mem_cons_self _ _) name value t2 hf
          have := ih (aInsert m (String.mk name) (.num q)) final k h
            (fun l hl => hnames l (List.mem_cons_of_mem _ hl))
          rw [this, aLookup_aInsert_ne _ _ hne]

theorem splitOnChar_ne_nil (sep : Char) (l : List Char) :
    splitOnChar sep l ≠ [] := by
  cases l with
  | nil => simp [splitOnChar]
  | cons c cs =>
    simp only [splitOnChar]
    cases h : splitOnChar sep cs with
    | nil => simp
    | cons r rs => by_cases hc : c = sep <;> simp [hc]

theorem splitOnChar_not_mem {sep : Char} :
    ∀ {xs : List Char}, sep ∉ xs → splitOnChar sep xs = [xs] := by
  intro xs
  induction xs with
  | nil => intro _; rfl
  | cons x t ih =>
    intro h
    have hx : ¬x = sep := fun he => h (by simp [he])
    have ht : sep ∉ t := fun he => h (List.mem_cons_of_mem _ he)
    simp only [splitOnChar, ih ht, hx, if_false]

theorem splitOnChar_append {sep : Char} :
    ∀ {xs : List Char} (ys : List Char), sep ∉ xs →
      splitOnChar sep (xs ++ sep :: ys) = xs :: splitOnChar sep ys := by
  intro xs
  induction xs with
  | nil =>
    intro ys _
    simp only [List.nil_append, splitOnChar]
    cases h : splitOnChar sep ys with
    | nil => exact absurd h (splitOnChar_ne_nil sep ys)
    | cons r rs => simp
  | cons x t ih =>
    intro ys h
    have hx : ¬x = sep := fun he => h (by simp [he])
    have ht : sep ∉ t := fun he => h (List.mem_cons_of_mem _ he)
    simp only [List.cons_append, splitOnChar]
    rw [List.append_eq, ih ys ht]
    simp [hx]

theorem stripCR_eq {l : List Char} (h : l.getLast? ≠ some '\r') :
    stripCR l = l := by
  simp [stripCR, h]

/-- C1: for every spawned command (measured run and iteration child), exit
code 0 is success (the run returns its metrics normally); an exit code in
(1,128] makes the harness exit with that exact code, the `exited` outcome
carrying no metrics; an exit code greater than 128 never exits, and with an
empty telemetry buffer the run returns normally with its metrics (wall time
shown here) still in the map. -/
theorem C1_failure_rule (c : ℤ) (d u s m : ℚ) (buf : String) (mets : Metrics) :
    (∃ final, run_test (some 0) d ⟨u, s, m⟩ "" mets = .ok final) ∧
    (1 < c → c ≤ 128 →
      run_test (some c) d ⟨u, s, m⟩ buf mets = .exited c ∧
      run_iteration (some c) buf mets = .exited c) ∧
    (128 < c →
      (∀ e, run_test (some c) d ⟨u, s, m⟩ buf mets ≠ .exited e) ∧
      (∀ e, run_iteration (some c) buf mets ≠ .exited e) ∧
      (∃ final, run_test (some c) d ⟨u, s, m⟩ "" mets = .ok final ∧
        aLookup final "wall.time" = some (.num d))) := by
  refine ⟨⟨_, rfl⟩, ?_, ?_⟩
  · intro h1 h2
    have hc : c ≠ 0 ∧ c ≤ 128 := ⟨by omega, h2⟩
    constructor
    · simp [run_test, hc]
    · simp [run_iteration, hc]
  · intro h
    have hc : ¬(c ≠ 0 ∧ c ≤ 128) := by omega
    refine ⟨?_, ?_, ?_⟩
    · intro e
      simp only [run_test, hc, if_false]
      cases hg : get_statsd_metrics
          (get_kernel_metrics d ⟨u, s, m⟩ (aInsert mets "wall.time" (.num d)))
          buf <;> simp [hg]
    · intro e
      simp only [run_iteration, hc, if_false]
      cases hg : get_statsd_metrics mets buf <;> simp [hg]
    · refine ⟨get_kernel_metrics d ⟨u, s, m⟩ (aInsert mets "wall.time" (.num d)),
        ?_, ?_⟩
      · simp [run_test, hc, get_statsd_metrics, trimChars, rustLines, statsdGo]
      · simp only [get_kernel_metrics]
        rw [aLookup_aInsert_ne _ _ (by decide), aLookup_aInsert_ne _ _ (by decide),
          aLookup_aInsert_ne _ _ (by decide), aLookup_aInsert_ne _ _ (by decide),
          aLookup_aInsert]

/-- C1 witness: the three hypotheses of the failure rule instantiated at exit
codes 2 and 137. -/
theorem C1_failure_rule_witness :
    ((1 : ℤ) < 2 ∧ (2 : ℤ) ≤ 128 ∧
      run_test (some 2) 7 ⟨1, 2, 3⟩ "x:1|g" [] = .exited 2 ∧
      run_iteration (some 2) "x:1|g" [] = .exited 2) ∧
    ((128 : ℤ) < 137 ∧
      (∀ e, run_test (some 137) 7 ⟨1, 2, 3⟩ "x:1|g" [] ≠ .exited e)) := by
  refine ⟨⟨by decide, by decide, ?_, ?_⟩, ⟨by decide, ?_⟩⟩
  · exact ((C1_failure_rule 2 7 1 2 3 "x:1|g" []).2.1 (by decide) (by decide)).1
  · exact ((C1_failure_rule 2 7 1 2 3 "x:1|g" []).2.1 (by decide) (by decide)).2
  · exact ((C1_failure_rule 137 7 1 2 3 "x:1|g" []).2.2 (by decide)).1

/-- C10: a spawned command that terminates without an exit code makes the
harness panic with "no exit code" in each of the three spawn sites, and the
documented failure-rule branches never panic when an exit code exists. -/
theorem C10_no_exit_code (st : ℕ → Option ℤ) (d : ℚ) (ru : Rusage)
    (buf : String) (mets : Metrics) (c : ℤ) :
    run_test none d ru buf mets = .panicked "no exit code" ∧
    run_iteration none buf mets = .panicked "no exit code" ∧
    (st 0 = none → run_setup st = ([.run none], .panicked "no exit code")) ∧
    (∀ e, run_test (some c) d ru buf mets ≠ .panicked e) ∧
    (∀ e, run_iteration (some c) buf mets ≠ .panicked e) := by
  refine ⟨rfl, rfl, ?_, ?_, ?_⟩
  · intro h
    simp [run_setup, run_setup_go, h]
  · intro e
    simp only [run_test]
    by_cases hc : c ≠ 0 ∧ c ≤ 128
    · simp [hc]
    · simp only [hc, if_false]
      cases hg : get_statsd_metrics
          (get_kernel_metrics d ru (aInsert mets "wall.time" (.num d))) buf <;>
        simp [hg]
  · intro e
    simp only [run_iteration]
    by_cases hc : c ≠ 0 ∧ c ≤ 128
    · simp [hc]
    · simp only [hc, if_false]
      cases hg : get_statsd_metrics mets buf <;> simp [hg]

/-- C10 witness: the panic observed with a concrete signal-killed status and
the failure rule observed with a concrete exit code. -/
theorem C10_no_exit_code_witness :
    (fun _ : ℕ => (none : Option ℤ)) 0 = none ∧
    run_setup (fun _ => none) = ([.run none], .panicked "no exit code") ∧
    run_test none 1 ⟨0, 0, 0⟩ "" [] = .panicked "no exit code" := by
  refine ⟨rfl, ?_, ?_⟩
  · exact (C10_no_exit_code (fun _ => none) 1 ⟨0, 0, 0⟩ "" [] 0).2.2.1 rfl
  · exact (C10_no_exit_code (fun _ => none) 1 ⟨0, 0, 0⟩ "" [] 0).1

/-- C4: a telemetry line with fewer than two colon fields (before the first
bar) is silently skipped; a well-formed line's value is parsed as an `f64`
and inserted under its name; a value failing to parse fails the whole
measurement; and the concrete input `a:1|c\njunk\nb:2|c` yields exactly the
metrics a = 1 and b = 2. -/
theorem C4_line_parsing (m : Metrics) (line : List Char)
    (rest : List (List Char)) (name value : List Char) (t : List (List Char))
    (q : ℚ) :
    ((statsd_line_fields line).length < 2 →
      statsdGo m (line :: rest) = statsdGo m rest) ∧
    (statsd_line_fields line = name :: value :: t → parse_f64 value = some q →
      statsdGo m (line :: rest) =
        statsdGo (aInsert m (String.mk name) (.num q)) rest) ∧
    (statsd_line_fields line = name :: value :: t → parse_f64 value = none →
      statsdGo m (line :: rest) = .error "invalid float literal") ∧
    get_statsd_metrics [] "a:1|c\njunk\nb:2|c" =
      .ok [("a", .num 1), ("b", .num 2)] := by
  refine ⟨?_, ?_, ?_, rfl⟩
  · intro hlen
    simp only [statsdGo]
    cases hf : statsd_line_fields line with
    | nil => rfl
    | cons x ts =>
      cases ts with
      | nil => rfl
      | cons y t2 => rw [hf] at hlen; simp at hlen; omega
  · intro hf hp
    simp only [statsdGo]
    rw [hf]
    dsimp only
    rw [hp]
  · intro hf hp
    simp only [statsdGo]
    rw [hf]
    dsimp only
    rw [hp]

/-- C4 witness: the skip rule applied to the junk line and the insert rule
applied to `a:1|c`, both at concrete inputs. -/
theorem C4_line_parsing_witness :
    ((statsd_line_fields "junk".data).length < 2 ∧
      statsdGo [] ["junk".data] = statsdGo [] []) ∧
    (statsd_line_fields "a:1|c".data = "a".data :: "1".data :: [] ∧
      parse_f64 "1".data = some 1 ∧
      statsdGo [] ["a:1|c".data] = statsdGo (aInsert [] "a" (.num 1)) []) := by
  refine ⟨⟨by decide, ?_⟩, ⟨by decide, by decide, ?_⟩⟩
  · exact (C4_line_parsing [] "junk".data [] [] [] [] 0).1 (by decide)
  · exact (C4_line_parsing [] "a:1|c".data [] "a".data "1".data [] 1).2.1
      (by decide) (by decide)

/-- C8 counterexample: on the line `a:1|2|g` the code takes name and value
from the part before the FIRST bar (name `a`, value `1`, parse succeeds),
while reading them from everything before the final bar would make the value
`1|2` and fail the measurement; the two field extractions disagree. -/
theorem C8_counterexample :
    statsd_line_fields "a:1|2|g".data = ["a".data, "1".data] ∧
    statsd_line_fields_spec "a:1|2|g".data = ["a".data, "1|2".data] ∧
    statsd_line_fields "a:1|2|g".data ≠ statsd_line_fields_spec "a:1|2|g".data ∧
    get_statsd_metrics [] "a:1|2|g" = .ok [("a", .num 1)] ∧
    get_statsd_metrics_spec [] "a:1|2|g" = .error "invalid float literal" :=
  ⟨by decide, by decide, by decide, rfl, rfl⟩

/-- C8 amended: in a telemetry line, only the suffix after the FIRST `'|'` is
ignored; everything before the first `'|'` (the whole line when it has no
bar) is what is split into the name and value fields. -/
theorem C8_first_bar (line xs ys : List Char) :
    ('|' ∉ xs → statsd_line_fields (xs ++ '|' :: ys) = splitOnChar ':' xs) ∧
    ('|' ∉ line → statsd_line_fields line = splitOnChar ':' line) := by
  constructor
  · intro h
    simp [statsd_line_fields, splitOnChar_append ys h]
  · intro h
    simp [statsd_line_fields, splitOnChar_not_mem h]

/-- C8 witness: the first-bar rule applied to `a:1|2|g`, split as
`a:1 ++ | ++ 2|g`. -/
theorem C8_first_bar_witness :
    ('|' ∉ "a:1".data) ∧
    statsd_line_fields ("a:1".data ++ '|' :: "2|g".data) =
      splitOnChar ':' "a:1".data :=
  ⟨by decide, (C8_first_bar [] "a:1".data "2|g".data).1 (by decide)⟩

theorem run_setup_go_ok (status : ℕ → Option ℤ) :
    ∀ (remaining attempts : ℕ),
      (run_setup_go status attempts remaining).2 = .ok () →
      ∃ k, k < remaining ∧ status (attempts + k) = some 0 ∧
        (∀ i, i < k → ∃ ci, status (attempts + i) = some ci ∧ ci ≠ 0) ∧
        (run_setup_go status attempts remaining).1 =
          (List.range k).flatMap
            (fun i => [.run (status (attempts + i)), .sleepSec]) ++
            [.run (some 0)] := by
  intro remaining
  induction remaining with
  | zero =>
    intro attempts h
    simp [run_setup_go] at h
  | succ r ih =>
    intro attempts h
    simp only [run_setup_go] at h ⊢
    cases hs : status attempts with
    | none =>
      rw [hs] at h
      cases h
    | some c =>
      rw [hs] at h
      dsimp only at h
      try dsimp only
      by_cases hc : c = 0
      · subst hc
        simp only [if_pos rfl] at h ⊢
        exact ⟨0, by omega, by simpa using hs, fun i hi => absurd hi (by omega),
          by simp⟩
      · simp only [if_neg hc] at h ⊢
        cases hp : run_setup_go status (attempts + 1) r with
        | mk tr res =>
          try rw [hp] at h
          try rw [hp]
          dsimp only at h ⊢
          obtain ⟨k', hk1, hk2, hk3, hk4⟩ := ih (attempts + 1)
            (by rw [hp]; exact h)
          rw [hp] at hk4
          dsimp only at hk4
          refine ⟨k' + 1, by omega, ?_, ?_, ?_⟩
          · have he : attempts + (k' + 1) = attempts + 1 + k' := by omega
            rw [he]; exact hk2
          · intro i hi
            cases i with
            | zero => exact ⟨c, by simpa using hs, hc⟩
            | succ j =>
              have he : attempts + (j + 1) = attempts + 1 + j := by omega
              rw [he]
              exact hk3 j (by omega)
          · rw [hk4, List.range_succ_eq_map]
            simp only [List.flatMap_cons, List.flatMap_map, List.cons_append,
              List.nil_append, Nat.add_zero, hs, Nat.succ_eq_add_one]
            have he : (fun a => [SetupEv.run (status (attempts + (a + 1))),
                SetupEv.sleepSec]) =
                fun a => [SetupEv.run (status (attempts + 1 + a)),
                  SetupEv.sleepSec] := by
              funext a
              have ha : attempts + (a + 1) = attempts + 1 + a := by omega
              rw [ha]
            rw [he]

/-- C5: the setup command is rerun until it exits 0, with one one-second
sleep between consecutive runs; a setup failing three times then succeeding
completes normally after four runs; one failing on a hundred consecutive
runs makes the harness abort with the fatal setup error, and the measured
command is then never invoked (the pipeline's result does not depend on the
measured run's inputs). -/
theorem C5_setup_retry (status : ℕ → Option ℤ) :
    ((run_setup status).2 = .ok () →
      ∃ k, k < 100 ∧ status k = some 0 ∧
        (∀ i, i < k → ∃ ci, status i = some ci ∧ ci ≠ 0) ∧
        (run_setup status).1 =
          (List.range k).flatMap (fun i => [.run (status i), .sleepSec]) ++
            [.run (some 0)]) ∧
    run_setup st_fail3 =
      ([.run (some 1), .sleepSec, .run (some 1), .sleepSec, .run (some 1),
        .sleepSec, .run (some 0)], .ok ()) ∧
    (run_setup st_fail100).2 =
      .err "setup script did not complete successfully. aborting." ∧
    (∀ testStatus d ru buf,
      setup_then_test st_fail100 testStatus d ru buf =
        .err "setup script did not complete successfully. aborting.") := by
  refine ⟨?_, by decide, by decide, ?_⟩
  · intro h
    obtain ⟨k, hk1, hk2, hk3, hk4⟩ := run_setup_go_ok status 100 0 h
    exact ⟨k, hk1, by simpa using hk2,
      fun i hi => by simpa using hk3 i hi, by simpa using hk4⟩
  · intro testStatus d ru buf
    have h : (run_setup st_fail100).2 =
        .err "setup script did not complete successfully. aborting." := by decide
    rw [setup_then_test, h]
    rfl

/-- C5 witness: the retry rule observed on the fail-three-times setup. -/
theorem C5_setup_retry_witness :
    (run_setup st_fail3).2 = .ok () ∧
    ∃ k, k < 100 ∧ st_fail3 k = some 0 ∧
      (∀ i, i < k → ∃ ci, st_fail3 i = some ci ∧ ci ≠ 0) ∧
      (run_setup st_fail3).1 =
        (List.range k).flatMap (fun i => [.run (st_fail3 i), .sleepSec]) ++
          [.run (some 0)] :=
  ⟨by decide, (C5_setup_retry st_fail3).1 (by decide)⟩

/-- C9: every received datagram's content is decoded as text, invalid bytes
degrading to the empty string (never an error), and the decoded text is
appended in full to the shared buffer; over any sequence of datagrams the
buffer accumulates every decode, none dropped, whatever their sizes. -/
theorem C9_listener (buf : String) (d : Option String)
    (ds : List (Option String)) :
    listener_append buf d = buf ++ decode_datagram d ∧
    (∀ str, d = some str → listener_append buf d = buf ++ str) ∧
    (d = none → listener_append buf d = buf ++ "") ∧
    listener_run buf ds = buf ++ decodeAll ds := by
  refine ⟨rfl, ?_, ?_, ?_⟩
  · intro str h
    rw [h]
    rfl
  · intro h
    rw [h]
    rfl
  · induction ds generalizing buf with
    | nil => simp [listener_run, decodeAll]
    | cons x t ih =>
      simp only [listener_run, List.foldl_cons, decodeAll]
      have := ih (listener_append buf x)
      simp only [listener_run] at this
      rw [this, listener_append, String.append_assoc]

/-- C9 witness: a valid and an invalid datagram appended to a concrete
buffer. -/
theorem C9_listener_witness :
    ((some "a:1|g" : Option String) = some "a:1|g" ∧
      listener_append "x" (some "a:1|g") = "x" ++ "a:1|g") ∧
    ((none : Option String) = none ∧
      listener_append "x" none = "x" ++ "") :=
  ⟨⟨rfl, (C9_listener "x" (some "a:1|g") []).2.1 "a:1|g" rfl⟩,
   ⟨rfl, (C9_listener "x" none []).2.2.1 rfl⟩⟩

/-- C7 (code-bug evidence): the value injected under the iteration marker key
`SIRUN_ITERATION` is the serialization of the UNMODIFIED parent config —
src/main.rs serializes on line 180 and only afterwards clears the profiler
flag on line 182 — so for a parent config with the profiler flag on, the
injected config still has it on, while the spec's per-iteration config has it
forced off and differs from what is injected. -/
theorem C7_injected_config (c0 : Config) :
    aLookup (run_iteration_childEnv c0) "SIRUN_ITERATION" =
      some (.yamlConfig c0) ∧
    aLookup (run_iteration_childEnv c7_config) "SIRUN_ITERATION" =
      some (.yamlConfig c7_config) ∧
    c7_config.cachegrind = true ∧
    (spec_childConfig c7_config).cachegrind = false ∧
    spec_childConfig c7_config ≠ c7_config := by
  refine ⟨aLookup_aInsert _ _ _, by decide, by decide, by decide, ?_⟩
  intro h
  have := congrArg Config.cachegrind h
  simp [spec_childConfig, c7_config] at this

/-- C6: the profiler's diagnostic output is filtered to the lines containing
the instruction-reference counter; each matching line's trailing numeric
token, thousands separators stripped, is parsed and summed, so two matching
lines valued `1,000` and `500` yield instructions = 1500; zero matching
lines, or more generally a non-positive sum, aborts with exit code 1, and an
unparsable token panics. -/
theorem C6_cachegrind (stderr : String) (q : ℚ) :
    cachegrind_instructions cachegrind_example = .ok 1500 ∧
    ((rustLines (trimChars stderr.data)).filter
        (fun l => containsSub l cachegrind_pat) = [] →
      cachegrind_instructions stderr = .exited 1) ∧
    (cachegrind_sum 0 ((rustLines (trimChars stderr.data)).filter
        (fun l => containsSub l cachegrind_pat)) = .ok q → q ≤ 0 →
      cachegrind_instructions stderr = .exited 1) ∧
    cachegrind_instructions "==1== I   refs: xyz" =
      .panicked "Bad cachegrind output: invalid number" := by
  refine ⟨?_, ?_, ?_, ?_⟩
  · have h1 : (rustLines (trimChars cachegrind_example.data)).filter
        (fun l => containsSub l cachegrind_pat) =
        ["==123== I   refs:      1,000".data, "==456== I   refs:        500".data] := by
      decide
    have hg1 : (splitWS (trimChars "==123== I   refs:      1,000".data)).getLast? =
        some "1,000".data := by decide
    have hg2 : (splitWS (trimChars "==456== I   refs:        500".data)).getLast? =
        some "500".data := by decide
    have hp1 : parse_f64 ("1,000".data.filter fun c => c ≠ ',') =
        some 1000 := by decide
    have hp2 : parse_f64 ("500".data.filter fun c => c ≠ ',') =
        some 500 := by decide
    simp only [cachegrind_instructions]
    rw [h1]
    simp only [cachegrind_sum]
    rw [hg1]
    dsimp only
    rw [hp1]
    dsimp only
    rw [hg2]
    dsimp only
    rw [hp2]
    dsimp only
    have hsum : ((0 : ℚ) + 1000) + 500 = 1500 := by norm_num
    rw [hsum]
    have hle : ¬((1500 : ℚ) ≤ 0) := by decide
    simp [Outcome.bind, hle]
  · intro h
    simp only [cachegrind_instructions]
    rw [h]
    simp only [cachegrind_sum, Outcome.bind]
    have : ((0 : ℚ) ≤ 0) := le_refl 0
    simp [this]
  · intro hsum hq
    simp only [cachegrind_instructions]
    rw [hsum]
    simp [Outcome.bind, if_pos hq]
  · have h1 : (rustLines (trimChars "==1== I   refs: xyz".data)).filter
        (fun l => containsSub l cachegrind_pat) =
        ["==1== I   refs: xyz".data] := by decide
    have hg1 : (splitWS (trimChars "==1== I   refs: xyz".data)).getLast? =
        some "xyz".data := by decide
    have hp1 : parse_f64 ("xyz".data.filter fun c => c ≠ ',') = none := by
      decide
    simp only [cachegrind_instructions]
    rw [h1]
    simp only [cachegrind_sum]
    rw [hg1]
    dsimp only
    rw [hp1]
    rfl

/-- C6 witness: the zero-matching-lines rule and the non-positive-sum rule
applied to a diagnostic output with no instruction-reference line. -/
theorem C6_cachegrind_witness :
    ((rustLines (trimChars "hello".data)).filter
        (fun l => containsSub l cachegrind_pat) = [] ∧
      cachegrind_instructions "hello" = .exited 1) ∧
    (cachegrind_sum 0 ((rustLines (trimChars "hello".data)).filter
        (fun l => containsSub l cachegrind_pat)) = .ok 0 ∧ (0 : ℚ) ≤ 0 ∧
      cachegrind_instructions "hello" = .exited 1) := by
  have h : (rustLines (trimChars "hello".data)).filter
      (fun l => containsSub l cachegrind_pat) = [] := by decide
  have hsum : cachegrind_sum 0 ((rustLines (trimChars "hello".data)).filter
      (fun l => containsSub l cachegrind_pat)) = .ok 0 := by
    rw [h]
    simp [cachegrind_sum]
  exact ⟨⟨h, (C6_cachegrind "hello" 0).2.1 h⟩,
    ⟨hsum, le_refl 0, (C6_cachegrind "hello" 0).2.2.1 hsum (le_refl 0)⟩⟩

theorem get_statsd_lookup_preserved (mst final : Metrics) (buf : String)
    (k : String) (hk : get_statsd_metrics mst buf = .ok final)
    (hdisj : ∀ n ∈ statsdNames buf, n ≠ k) :
    aLookup final k = aLookup mst k := by
  apply statsdGo_lookup_not_mem _ _ _ _ hk
  intro line hl name value t hf
  apply hdisj
  unfold statsdNames
  refine List.mem_filterMap.mpr ⟨line, hl, ?_⟩
  rw [hf]

/-- C2: after a successful measured run whose drained telemetry does not
itself rebind the five fixed names, the metrics map contains max.res.size,
user.time, system.time, wall.time and cpu.pct.wall.time, all non-negative
(given non-negative resource deltas and a positive wall time, as the OS
provides), with cpu.pct.wall.time = (user.time + system.time) * 100 /
wall.time. -/
theorem C2_single_run (d u s m : ℚ) (buf : String) (final : Metrics)
    (hd : 0 < d) (hu : 0 ≤ u) (hs : 0 ≤ s) (hm : 0 ≤ m)
    (hdisj : ∀ n ∈ statsdNames buf, n ∉ fiveKeys)
    (hrun : run_test (some 0) d ⟨u, s, m⟩ buf [] = .ok final) :
    (aLookup final "max.res.size" = some (.num m) ∧ 0 ≤ m) ∧
    (aLookup final "user.time" = some (.num u) ∧ 0 ≤ u) ∧
    (aLookup final "system.time" = some (.num s) ∧ 0 ≤ s) ∧
    (aLookup final "wall.time" = some (.num d) ∧ 0 ≤ d) ∧
    (aLookup final "cpu.pct.wall.time" = some (.num ((u + s) * 100 / d)) ∧
      0 ≤ (u + s) * 100 / d) := by
  have hc : ¬((0 : ℤ) ≠ 0 ∧ (0 : ℤ) ≤ 128) := by omega
  simp only [run_test, hc, if_false] at hrun
  set km := get_kernel_metrics d ⟨u, s, m⟩ (aInsert [] "wall.time" (.num d))
    with hkm
  cases hg : get_statsd_metrics km buf with
  | error e => rw [hg] at hrun; cases hrun
  | ok m2 =>
    rw [hg] at hrun
    dsimp only at hrun
    injection hrun with hfin
    subst hfin
    have hpres : ∀ key : String, key ∈ fiveKeys →
        aLookup m2 key = aLookup km key := by
      intro key hkey
      apply get_statsd_lookup_preserved km m2 buf key hg
      intro n hn he
      exact hdisj n hn (he ▸ hkey)
    have e1 : aLookup km "max.res.size" = some (.num m) := by
      rw [hkm]
      simp only [get_kernel_metrics]
      rw [aLookup_aInsert_ne _ _ (by decide), aLookup_aInsert_ne _ _ (by decide),
        aLookup_aInsert_ne _ _ (by decide), aLookup_aInsert]
    have e2 : aLookup km "user.time" = some (.num u) := by
      rw [hkm]
      simp only [get_kernel_metrics]
      rw [aLookup_aInsert_ne _ _ (by decide), aLookup_aInsert_ne _ _ (by decide),
        aLookup_aInsert]
    have e3 : aLookup km "system.time" = some (.num s) := by
      rw [hkm]
      simp only [get_kernel_metrics]
      rw [aLookup_aInsert_ne _ _ (by decide), aLookup_aInsert]
    have e4 : aLookup km "wall.time" = some (.num d) := by
      rw [hkm]
      simp only [get_kernel_metrics]
      rw [aLookup_aInsert_ne _ _ (by decide), aLookup_aInsert_ne _ _ (by decide),
        aLookup_aInsert_ne _ _ (by decide), aLookup_aInsert_ne _ _ (by decide),
        aLookup_aInsert]
    have e5 : aLookup km "cpu.pct.wall.time" =
        some (.num ((u + s) * 100 / d)) := by
      rw [hkm]
      simp only [get_kernel_metrics]
      rw [aLookup_aInsert]
    refine ⟨⟨?_, hm⟩, ⟨?_, hu⟩, ⟨?_, hs⟩, ⟨?_, le_of_lt hd⟩, ⟨?_, ?_⟩⟩
    · rw [hpres _ (by decide), e1]
    · rw [hpres _ (by decide), e2]
    · rw [hpres _ (by decide), e3]
    · rw [hpres _ (by decide), e4]
    · rw [hpres _ (by decide), e5]
    · exact div_nonneg (mul_nonneg (add_nonneg hu hs) (by norm_num))
        (le_of_lt hd)

/-- C2 witness: the five metrics observed after a concrete successful run
with an empty telemetry buffer. -/
theorem C2_single_run_witness :
    (0 : ℚ) < 2 ∧ (0 : ℚ) ≤ 1 ∧ (∀ n ∈ statsdNames "", n ∉ fiveKeys) ∧
    ((aLookup (get_kernel_metrics 2 ⟨1, 1, 1⟩ (aInsert [] "wall.time" (.num 2)))
        "max.res.size" = some (.num 1) ∧ (0 : ℚ) ≤ 1) ∧
      (aLookup (get_kernel_metrics 2 ⟨1, 1, 1⟩ (aInsert [] "wall.time" (.num 2)))
        "user.time" = some (.num 1) ∧ (0 : ℚ) ≤ 1) ∧
      (aLookup (get_kernel_metrics 2 ⟨1, 1, 1⟩ (aInsert [] "wall.time" (.num 2)))
        "system.time" = some (.num 1) ∧ (0 : ℚ) ≤ 1) ∧
      (aLookup (get_kernel_metrics 2 ⟨1, 1, 1⟩ (aInsert [] "wall.time" (.num 2)))
        "wall.time" = some (.num 2) ∧ (0 : ℚ) ≤ 2) ∧
      (aLookup (get_kernel_metrics 2 ⟨1, 1, 1⟩ (aInsert [] "wall.time" (.num 2)))
        "cpu.pct.wall.time" = some (.num ((1 + 1) * 100 / 2)) ∧
        (0 : ℚ) ≤ (1 + 1) * 100 / 2)) :=
  ⟨by decide, by decide, by decide,
    C2_single_run 2 1 1 1 "" _ (by decide) (by decide) (by decide) (by decide)
      (by decide) rfl⟩

theorem trimChars_wire (L : List Char) (h1 : L.head? = some 'm')
    (h2 : L.getLast? = some 'g') : trimChars (L ++ ['\n']) = L := by
  cases L with
  | nil => cases h1
  | cons a t =>
    have ha : a = 'm' := by
      simp only [List.head?_cons, Option.some.injEq] at h1
      exact h1
    subst ha
    unfold trimChars
    rw [List.cons_append, List.dropWhile_cons_of_neg (by decide),
      List.reverse_cons, List.reverse_append]
    simp only [List.reverse_cons, List.reverse_nil, List.nil_append,
      List.cons_append]
    rw [List.dropWhile_cons_of_pos (by decide)]
    cases hr : t.reverse with
    | nil =>
      have ht : t = [] := by simpa using congrArg List.reverse hr
      subst ht
      exact absurd h2 (by decide)
    | cons g' r' =>
      have ht : t ≠ [] := by
        intro h
        rw [h] at hr
        cases hr
      have hg : g' = 'g' := by
        have hgl : t.getLast? = some 'g' := by
          rw [List.getLast?_cons] at h2
          simp only [Option.some.injEq] at h2
          cases hgo : t.getLast? with
          | none =>
            cases t with
            | nil => exact absurd rfl ht
            | cons b r => simp [List.getLast?_cons] at hgo
          | some x =>
            rw [hgo] at h2
            simp only [Option.getD_some] at h2
            rw [h2]
        rw [List.getLast?_eq_head?_reverse, hr] at hgl
        simpa using hgl
      subst hg
      rw [List.cons_append, List.dropWhile_cons_of_neg (by decide),
        ← List.cons_append, ← hr, List.reverse_append, List.reverse_reverse]
      rfl

theorem rustLines_wire (l1 l2 l3 l4 l5 : List Char)
    (h1 : '\n' ∉ l1) (h2 : '\n' ∉ l2) (h3 : '\n' ∉ l3) (h4 : '\n' ∉ l4)
    (h5 : '\n' ∉ l5) (hne : l5 ≠ [])
    (hc1 : l1.getLast? ≠ some '\r') (hc2 : l2.getLast? ≠ some '\r')
    (hc3 : l3.getLast? ≠ some '\r') (hc4 : l4.getLast? ≠ some '\r')
    (hc5 : l5.getLast? ≠ some '\r') :
    rustLines (l1 ++ '\n' :: (l2 ++ '\n' :: (l3 ++ '\n' :: (l4 ++ '\n' :: l5)))) =
      [l1, l2, l3, l4, l5] := by
  have hnn : l1 ++ '\n' :: (l2 ++ '\n' :: (l3 ++ '\n' :: (l4 ++ '\n' :: l5))) ≠
      [] := by
    intro h
    have := congrArg List.length h
    simp at this
  unfold rustLines
  rw [if_neg hnn, splitOnChar_append _ h1, splitOnChar_append _ h2,
    splitOnChar_append _ h3, splitOnChar_append _ h4, splitOnChar_not_mem h5]
  have hgl : ([l1, l2, l3, l4, l5] : List (List Char)).getLast? = some l5 := rfl
  dsimp only
  rw [hgl]
  rw [if_neg (by simp [hne])]
  simp only [List.map_cons, List.map_nil, stripCR_eq hc1, stripCR_eq hc2,
    stripCR_eq hc3, stripCR_eq hc4, stripCR_eq hc5]

theorem statsd_fields_wire (k s : List Char) (hk1 : '|' ∉ k) (hk2 : ':' ∉ k)
    (hs : ∀ c ∈ s, c ≠ '\n' ∧ c ≠ '|' ∧ c ≠ ':') :
    statsd_line_fields (k ++ ':' :: (s ++ ['|', 'g'])) = [k, s] := by
  have hbar : '|' ∉ k ++ ':' :: s := by
    intro hmem
    rcases List.mem_append.mp hmem with h | h
    · exact hk1 h
    · rcases List.mem_cons.mp h with h | h
      · exact absurd h (by decide)
      · exact (hs _ h).2.1 rfl
  have hcol : ':' ∉ s := fun hmem => (hs _ hmem).2.2 rfl
  have hshape : k ++ ':' :: (s ++ ['|', 'g']) =
      (k ++ ':' :: s) ++ '|' :: ['g'] := by
    simp [List.append_assoc]
  unfold statsd_line_fields
  rw [hshape, splitOnChar_append _ hbar]
  simp only [List.headD_cons]
  rw [splitOnChar_append _ hk2, splitOnChar_not_mem hcol]

theorem fiveInsert (q1 q2 q3 q4 q5 : ℚ) :
    aInsert (aInsert (aInsert (aInsert (aInsert []
      "max.res.size" (MetricValue.num q1)) "user.time" (.num q2))
      "system.time" (.num q3)) "wall.time" (.num q4))
      "cpu.pct.wall.time" (.num q5) =
    [("max.res.size", .num q1), ("user.time", .num q2),
     ("system.time", .num q3), ("wall.time", .num q4),
     ("cpu.pct.wall.time", .num q5)] := by
  simp [aInsert]

theorem wire_line_facts (k s : List Char) (hk : '\n' ∉ k)
    (hs : ∀ c ∈ s, c ≠ '\n' ∧ c ≠ '|' ∧ c ≠ ':') :
    '\n' ∉ k ++ ':' :: (s ++ ['|', 'g']) ∧
    (k ++ ':' :: (s ++ ['|', 'g'])).getLast? ≠ some '\r' ∧
    k ++ ':' :: (s ++ ['|', 'g']) ≠ [] := by
  refine ⟨?_, ?_, ?_⟩
  · intro hmem
    rcases List.mem_append.mp hmem with h | h
    · exact hk h
    · rcases List.mem_cons.mp h with h | h
      · exact absurd h (by decide)
      · rcases List.mem_append.mp h with h | h
        · exact (hs _ h).1 rfl
        · exact absurd h (by decide)
  · have hg : (k ++ ':' :: (s ++ ['|', 'g'])).getLast? = some 'g' := by
      have hshape : k ++ ':' :: (s ++ ['|', 'g']) =
          (k ++ ':' :: (s ++ ['|'])) ++ ['g'] := by
        simp [List.append_assoc]
      rw [hshape, List.getLast?_concat]
    rw [hg]
    decide
  · intro h
    have := congrArg List.length h
    simp at this

theorem statsdGo_step (m : Metrics) (line : List Char)
    (rest : List (List Char)) (name value : List Char) (t : List (List Char))
    (q : ℚ) (hf : statsd_line_fields line = name :: value :: t)
    (hp : parse_f64 value = some q) :
    statsdGo m (line :: rest) =
      statsdGo (aInsert m (String.mk name) (.num q)) rest := by
  simp only [statsdGo]
  rw [hf]
  dsimp only
  rw [hp]

theorem report_parses (s1 s2 s3 s4 s5 : String) (q1 q2 q3 q4 q5 : ℚ)
    (hp1 : parse_f64 s1.data = some q1) (hp2 : parse_f64 s2.data = some q2)
    (hp3 : parse_f64 s3.data = some q3) (hp4 : parse_f64 s4.data = some q4)
    (hp5 : parse_f64 s5.data = some q5)
    (hc1 : ∀ c ∈ s1.data, c ≠ '\n' ∧ c ≠ '|' ∧ c ≠ ':')
    (hc2 : ∀ c ∈ s2.data, c ≠ '\n' ∧ c ≠ '|' ∧ c ≠ ':')
    (hc3 : ∀ c ∈ s3.data, c ≠ '\n' ∧ c ≠ '|' ∧ c ≠ ':')
    (hc4 : ∀ c ∈ s4.data, c ≠ '\n' ∧ c ≠ '|' ∧ c ≠ ':')
    (hc5 : ∀ c ∈ s5.data, c ≠ '\n' ∧ c ≠ '|' ∧ c ≠ ':') :
    get_statsd_metrics [] (iteration_report s1 s2 s3 s4 s5) =
      .ok [("max.res.size", .num q1), ("user.time", .num q2),
        ("system.time", .num q3), ("wall.time", .num q4),
        ("cpu.pct.wall.time", .num q5)] := by
  obtain ⟨hn1, hr1, hz1⟩ := wire_line_facts "max.res.size".data s1.data
    (by decide) hc1
  obtain ⟨hn2, hr2, hz2⟩ := wire_line_facts "user.time".data s2.data
    (by decide) hc2
  obtain ⟨hn3, hr3, hz3⟩ := wire_line_facts "system.time".data s3.data
    (by decide) hc3
  obtain ⟨hn4, hr4, hz4⟩ := wire_line_facts "wall.time".data s4.data
    (by decide) hc4
  obtain ⟨hn5, hr5, hz5⟩ := wire_line_facts "cpu.pct.wall.time".data s5.data
    (by decide) hc5
  have hR : (iteration_report s1 s2 s3 s4 s5).data =
      (("max.res.size".data ++ ':' :: (s1.data ++ ['|', 'g'])) ++ '\n' ::
       (("user.time".data ++ ':' :: (s2.data ++ ['|', 'g'])) ++ '\n' ::
        (("system.time".data ++ ':' :: (s3.data ++ ['|', 'g'])) ++ '\n' ::
         (("wall.time".data ++ ':' :: (s4.data ++ ['|', 'g'])) ++ '\n' ::
          ("cpu.pct.wall.time".data ++ ':' ::
            (s5.data ++ ['|', 'g'])))))) ++ ['\n'] := by
    have e1 : "max.res.size:".data = "max.res.size".data ++ [':'] := by decide
    have e2 : "user.time:".data = "user.time".data ++ [':'] := by decide
    have e3 : "system.time:".data = "system.time".data ++ [':'] := by decide
    have e4 : "wall.time:".data = "wall.time".data ++ [':'] := by decide
    have e5 : "cpu.pct.wall.time:".data =
        "cpu.pct.wall.time".data ++ [':'] := by decide
    have eb : "|g\n".data = ['|', 'g', '\n'] := by decide
    simp only [iteration_report, String.data_append, e1, e2, e3, e4, e5, eb]
    simp [List.append_assoc]
  have hhead : ((("max.res.size".data ++ ':' :: (s1.data ++ ['|', 'g'])) ++ '\n' ::
       (("user.time".data ++ ':' :: (s2.data ++ ['|', 'g'])) ++ '\n' ::
        (("system.time".data ++ ':' :: (s3.data ++ ['|', 'g'])) ++ '\n' ::
         (("wall.time".data ++ ':' :: (s4.data ++ ['|', 'g'])) ++ '\n' ::
          ("cpu.pct.wall.time".data ++ ':' ::
            (s5.data ++ ['|', 'g']))))))).head? = some 'm' := by
    have hm : "max.res.size".data.head? = some 'm' := rfl
    simp [List.head?_append, hm]
  have hlast : ((("max.res.size".data ++ ':' :: (s1.data ++ ['|', 'g'])) ++ '\n' ::
       (("user.time".data ++ ':' :: (s2.data ++ ['|', 'g'])) ++ '\n' ::
        (("system.time".data ++ ':' :: (s3.data ++ ['|', 'g'])) ++ '\n' ::
         (("wall.time".data ++ ':' :: (s4.data ++ ['|', 'g'])) ++ '\n' ::
          ("cpu.pct.wall.time".data ++ ':' ::
            (s5.data ++ ['|', 'g']))))))).getLast? = some 'g' := by
    have hshape : (("max.res.size".data ++ ':' :: (s1.data ++ ['|', 'g'])) ++ '\n' ::
       (("user.time".data ++ ':' :: (s2.data ++ ['|', 'g'])) ++ '\n' ::
        (("system.time".data ++ ':' :: (s3.data ++ ['|', 'g'])) ++ '\n' ::
         (("wall.time".data ++ ':' :: (s4.data ++ ['|', 'g'])) ++ '\n' ::
          ("cpu.pct.wall.time".data ++ ':' ::
            (s5.data ++ ['|', 'g'])))))) =
        ((("max.res.size".data ++ ':' :: (s1.data ++ ['|', 'g'])) ++ '\n' ::
         (("user.time".data ++ ':' :: (s2.data ++ ['|', 'g'])) ++ '\n' ::
          (("system.time".data ++ ':' :: (s3.data ++ ['|', 'g'])) ++ '\n' ::
           (("wall.time".data ++ ':' :: (s4.data ++ ['|', 'g'])) ++ '\n' ::
            ("cpu.pct.wall.time".data ++ ':' ::
              (s5.data ++ ['|'])))))) ++ ['g']) := by
      simp [List.append_assoc]
    rw [hshape, List.getLast?_concat]
  rw [get_statsd_metrics, hR, trimChars_wire _ hhead hlast,
    rustLines_wire _ _ _ _ _ hn1 hn2 hn3 hn4 hn5 hz5 hr1 hr2 hr3 hr4 hr5]
  rw [statsdGo_step _ _ _ _ _ _ _
      (statsd_fields_wire "max.res.size".data s1.data (by decide) (by decide) hc1)
      hp1,
    statsdGo_step _ _ _ _ _ _ _
      (statsd_fields_wire "user.time".data s2.data (by decide) (by decide) hc2)
      hp2,
    statsdGo_step _ _ _ _ _ _ _
      (statsd_fields_wire "system.time".data s3.data (by decide) (by decide) hc3)
      hp3,
    statsdGo_step _ _ _ _ _ _ _
      (statsd_fields_wire "wall.time".data s4.data (by decide) (by decide) hc4)
      hp4,
    statsdGo_step _ _ _ _ _ _ _
      (statsd_fields_wire "cpu.pct.wall.time".data s5.data (by decide) (by decide)
        hc5)
      hp5]
  simp only [show String.mk "max.res.size".data = "max.res.size" from rfl,
    show String.mk "user.time".data = "user.time" from rfl,
    show String.mk "system.time".data = "system.time" from rfl,
    show String.mk "wall.time".data = "wall.time" from rfl,
    show String.mk "cpu.pct.wall.time".data = "cpu.pct.wall.time" from rfl]
  rw [show statsdGo (aInsert (aInsert (aInsert (aInsert (aInsert []
      "max.res.size" (MetricValue.num q1)) "user.time" (.num q2))
      "system.time" (.num q3)) "wall.time" (.num q4))
      "cpu.pct.wall.time" (.num q5)) [] =
      .ok (aInsert (aInsert (aInsert (aInsert (aInsert []
      "max.res.size" (MetricValue.num q1)) "user.time" (.num q2))
      "system.time" (.num q3)) "wall.time" (.num q4))
      "cpu.pct.wall.time" (.num q5)) from rfl]
  rw [fiveInsert]

theorem run_iteration_report (b : String) (hb : goodReport b) :
    ∃ e, run_iteration (some 0) b [] = .ok e ∧ aKeys e = fiveKeys := by
  obtain ⟨s1, s2, s3, s4, s5, hv1, hv2, hv3, hv4, hv5, hbe⟩ := hb
  obtain ⟨q1, hq1⟩ := Option.isSome_iff_exists.mp hv1.1
  obtain ⟨q2, hq2⟩ := Option.isSome_iff_exists.mp hv2.1
  obtain ⟨q3, hq3⟩ := Option.isSome_iff_exists.mp hv3.1
  obtain ⟨q4, hq4⟩ := Option.isSome_iff_exists.mp hv4.1
  obtain ⟨q5, hq5⟩ := Option.isSome_iff_exists.mp hv5.1
  have hrep := report_parses s1 s2 s3 s4 s5 q1 q2 q3 q4 q5 hq1 hq2 hq3 hq4 hq5
    hv1.2 hv2.2 hv3.2 hv4.2 hv5.2
  refine ⟨[("max.res.size", .num q1), ("user.time", .num q2),
    ("system.time", .num q3), ("wall.time", .num q4),
    ("cpu.pct.wall.time", .num q5)], ?_, rfl⟩
  have hc : ¬((0 : ℤ) ≠ 0 ∧ (0 : ℤ) ≤ 128) := by omega
  simp only [run_iteration, hc, if_false]
  rw [hbe, hrep]

theorem iterations_loop_ok (statuses : ℕ → Option ℤ) (bufs : ℕ → String) :
    ∀ (n i : ℕ),
      (∀ j, i ≤ j → j < i + n → statuses j = some 0 ∧ goodReport (bufs j)) →
      ∃ its, iterations_loop statuses bufs i n = .ok its ∧ its.length = n ∧
        ∀ e ∈ its, aKeys e = fiveKeys := by
  intro n
  induction n with
  | zero => exact fun i _ => ⟨[], rfl, rfl, by simp⟩
  | succ k ih =>
    intro i h
    obtain ⟨hst, hrep⟩ := h i (le_refl i) (by omega)
    obtain ⟨e, he, hkeys⟩ := run_iteration_report (bufs i) hrep
    obtain ⟨its, hits, hlen, hall⟩ := ih (i + 1)
      (fun j hj1 hj2 => h j (by omega) (by omega))
    refine ⟨e :: its, ?_, by simp [hlen], ?_⟩
    · simp only [iterations_loop]
      rw [hst, he]
      simp only [Outcome.bind]
      rw [hits]
    · intro x hx
      rcases List.mem_cons.mp hx with hx | hx
      · rw [hx]; exact hkeys
      · exact hall x hx

/-- C3: for any configured iteration count N at least 2, with each child
exiting 0 and reporting its five metrics over the wire, the top-level output
binds "iterations" to an array of exactly N entries, each entry carrying
exactly the five fixed metric names, no more and no fewer. -/
theorem C3_iterations (cfg : Config) (statuses : ℕ → Option ℤ)
    (bufs : ℕ → String) (h2 : 2 ≤ cfg.iterations)
    (h : ∀ j, j < cfg.iterations → statuses j = some 0 ∧ goodReport (bufs j)) :
    ∃ its, main_multi cfg statuses bufs =
        .ok (aInsert [] "iterations" (.arr its)) ∧
      its.length = cfg.iterations ∧ ∀ e ∈ its, aKeys e = fiveKeys := by
  obtain ⟨its, hits, hlen, hall⟩ := iterations_loop_ok statuses bufs
    cfg.iterations 0 (fun j hj1 hj2 => h j (by omega))
  refine ⟨its, ?_, hlen, hall⟩
  simp only [main_multi]
  rw [hits]
  rfl

/-- C3 witness: two iterations with concrete well-formed child reports. -/
theorem C3_iterations_witness :
    (2 ≤ c3_config.iterations ∧
      (∀ j, j < c3_config.iterations →
        (fun _ : ℕ => (some 0 : Option ℤ)) j = some 0 ∧
        goodReport ((fun _ : ℕ => iteration_report "1" "2" "3" "4" "5") j))) ∧
    ∃ its, main_multi c3_config (fun _ => some 0)
        (fun _ => iteration_report "1" "2" "3" "4" "5") =
        .ok (aInsert [] "iterations" (.arr its)) ∧
      its.length = c3_config.iterations ∧ ∀ e ∈ its, aKeys e = fiveKeys := by
  have hgood : goodReport (iteration_report "1" "2" "3" "4" "5") :=
    ⟨"1", "2", "3", "4", "5", ⟨by decide, by decide⟩, ⟨by decide, by decide⟩,
      ⟨by decide, by decide⟩, ⟨by decide, by decide⟩, ⟨by decide, by decide⟩,
      rfl⟩
  have hyp : ∀ j, j < c3_config.iterations →
      (fun _ : ℕ => (some 0 : Option ℤ)) j = some 0 ∧
      goodReport ((fun _ : ℕ => iteration_report "1" "2" "3" "4" "5") j) :=
    fun j _ => ⟨rfl, hgood⟩
  exact ⟨⟨by decide, hyp⟩,
    C3_iterations c3_config (fun _ => some 0)
      (fun _ => iteration_report "1" "2" "3" "4" "5") (by decide) hyp⟩

end Sirun
